import Mathlib

/-!
# Verification of the simview run-lifecycle, model and delivery layer

A shallow embedding of `src/simview` (model.py, state.py, __init__.py,
server.py).  Python dicts are modelled as insertion-ordered association
lists with last-write-wins update semantics; torch tensors are modelled
as (rectangular) nested lists of rationals; exceptions are modelled with
`Except`; the filesystem is an association list from paths to documents.
Scalar-channel values and serialized body-state payloads are opaque type
parameters `V` and `B`: the run layer passes them through unchanged.
-/

set_option autoImplicit false

namespace SimViewSpec

universe u v

variable {α : Type u} {β : Type v}

/-- Key lookup in a Python-dict-like association list:
first entry with the given key. -/
def plookup (k : String) : List (String × α) → Option α
  | [] => none
  | (k', v) :: rest => if k' = k then some v else plookup k rest

/-- Assignment `d[k] = v` on a Python dict: if the key is present, the value is
replaced in place (insertion position kept); otherwise the pair is
appended at the end. -/
def pyInsert (d : List (String × α)) (k : String) (v : α) : List (String × α) :=
  if d.any (fun kv => kv.1 = k) then
    d.map (fun kv => if kv.1 = k then (k, v) else kv)
  else
    d ++ [(k, v)]

/-- Building a Python dict literal from a sequence of key/value pairs
(`{k1: v1, k2: v2, ...}` including `**spread`s): later occurrences of a
key overwrite earlier ones. -/
def pyDictOf (entries : List (String × α)) : List (String × α) :=
  entries.foldl (fun d kv => pyInsert d kv.1 kv.2) []

/-- The value carried by the last occurrence of `k` in an entry
sequence. -/
def lastVal (k : String) (entries : List (String × α)) : Option α :=
  entries.foldl (fun acc kv => if kv.1 = k then some kv.2 else acc) none

/-- Python `set(a) == set(b)` on key lists. -/
def pySetEq (a b : List String) : Bool :=
  a.all (fun x => b.contains x) && b.all (fun x => a.contains x)

theorem plookup_append (k : String) (d e : List (String × α)) :
    plookup k (d ++ e) = (plookup k d).elim (plookup k e) some := by
  induction d with
  | nil => simp [plookup]
  | cons hd tl ih =>
    obtain ⟨k', v⟩ := hd
    by_cases h : k' = k <;> simp [plookup, h, ih]

theorem any_of_plookup_isSome (k : String) (d : List (String × α))
    (h : (plookup k d).isSome) : d.any (fun kv => kv.1 = k) := by
  induction d with
  | nil => simp [plookup] at h
  | cons hd tl ih =>
    obtain ⟨k', v⟩ := hd
    by_cases hk : k' = k
    · simp [hk]
    · simp only [plookup, hk, if_false] at h
      simpa using Or.inr (by simpa using ih h)

theorem plookup_mapReplace (d : List (String × α)) (k k' : String) (v : α) :
    plookup k (d.map (fun kv => if kv.1 = k' then (k', v) else kv)) =
      if k' = k then (if d.any (fun kv => kv.1 = k) then some v else none)
      else plookup k d := by
  induction d with
  | nil =>
    by_cases h : k' = k <;> simp [plookup, h]
  | cons hd tl ih =>
    obtain ⟨k0, v0⟩ := hd
    rw [List.map_cons]
    by_cases h0 : k0 = k'
    · rw [if_pos (show (k0, v0).1 = k' from h0)]
      by_cases h1 : k' = k
      · subst h1
        have hany : ((k0, v0) :: tl).any (fun kv => kv.1 = k') = true := by
          simp [List.any_cons, h0]
        simp [plookup, hany]
      · have hk0 : ¬ (k0 = k) := by rw [h0]; exact h1
        have hany : ((k0, v0) :: tl).any (fun kv => kv.1 = k)
            = tl.any (fun kv => kv.1 = k) := by
          simp [List.any_cons, hk0]
        simp only [plookup, if_neg h1, if_neg hk0, ih]
    · rw [if_neg (show ¬ ((k0, v0).1 = k') from h0)]
      by_cases hk0 : k0 = k
      · have h1 : ¬ (k' = k) := by
          intro hc
          exact h0 (by rw [hk0, hc])
        simp [plookup, hk0, h1]
      · simp only [plookup, if_neg hk0, ih]
        by_cases h1 : k' = k
        · subst h1
          rw [List.any_cons, decide_eq_false hk0, Bool.false_or]
        · simp [h1]

theorem plookup_pyInsert (d : List (String × α)) (k k' : String) (v : α) :
    plookup k (pyInsert d k' v) = if k' = k then some v else plookup k d := by
  unfold pyInsert
  by_cases hmem : d.any (fun kv => kv.1 = k')
  · rw [if_pos hmem, plookup_mapReplace]
    by_cases h : k' = k
    · subst h
      simp [hmem]
    · simp [h]
  · rw [if_neg hmem, plookup_append]
    by_cases h : k' = k
    · subst h
      have hnone : plookup k' d = none := by
        cases ho : plookup k' d with
        | none => rfl
        | some w => exact absurd (any_of_plookup_isSome k' d (by simp [ho])) hmem
      simp [hnone, plookup]
    · cases ho : plookup k d with
      | none => simp [plookup, h]
      | some w => simp [h]

theorem lastVal_foldl (k : String) (tl : List (String × α)) (init : Option α) :
    tl.foldl (fun acc kv => if kv.1 = k then some kv.2 else acc) init =
      (lastVal k tl).elim init some := by
  induction tl generalizing init with
  | nil => simp [lastVal]
  | cons hd tl ih =>
    rw [List.foldl_cons, ih]
    have hl : lastVal k (hd :: tl) =
        (lastVal k tl).elim (if hd.1 = k then some hd.2 else none) some := by
      unfold lastVal
      rw [List.foldl_cons]
      exact ih (if hd.1 = k then some hd.2 else none)
    rw [hl]
    cases hlv : lastVal k tl with
    | some w => simp
    | none =>
      by_cases h : hd.1 = k <;> simp [h]

theorem lastVal_cons (k : String) (hd : String × α) (tl : List (String × α)) :
    lastVal k (hd :: tl) =
      (lastVal k tl).elim (if hd.1 = k then some hd.2 else none) some := by
  unfold lastVal
  rw [List.foldl_cons]
  exact lastVal_foldl k tl (if hd.1 = k then some hd.2 else none)

/-- Looking a key up in a Python dict literal yields the value of the
key's last occurrence in the entry sequence. -/
theorem plookup_pyDictOf (entries : List (String × α)) (k : String) :
    plookup k (pyDictOf entries) = lastVal k entries := by
  suffices h : ∀ d : List (String × α),
      plookup k (entries.foldl (fun d kv => pyInsert d kv.1 kv.2) d) =
        (lastVal k entries).elim (plookup k d) some by
    have h0 := h []
    simp only [pyDictOf]
    rw [h0]
    cases lastVal k entries <;> simp [plookup]
  induction entries with
  | nil => intro d; simp [lastVal]
  | cons hd tl ih =>
    intro d
    rw [List.foldl_cons, ih (pyInsert d hd.1 hd.2), plookup_pyInsert, lastVal_cons]
    cases hlv : lastVal k tl with
    | some w => simp
    | none =>
      by_cases h : hd.1 = k <;> simp [h]

/-! ## Tensor reductions and rearrangements (torch / einops fragment) -/

/-- Reduction `tensor.min().item()` on the flattened value list; torch raises on an
empty tensor, so `0` is an unreachable junk default. -/
def listMin : List ℚ → ℚ
  | [] => 0
  | x :: xs => xs.foldl min x

/-- Reduction `tensor.max().item()` on the flattened value list. -/
def listMax : List ℚ → ℚ
  | [] => 0
  | x :: xs => xs.foldl max x

theorem foldl_min_le_init (xs : List ℚ) (x : ℚ) : xs.foldl min x ≤ x := by
  induction xs generalizing x with
  | nil => simp
  | cons y ys ih => exact le_trans (ih (min x y)) (min_le_left x y)

theorem foldl_min_le_mem (xs : List ℚ) (x y : ℚ) (hy : y ∈ xs) :
    xs.foldl min x ≤ y := by
  induction xs generalizing x with
  | nil => cases hy
  | cons z zs ih =>
    rcases List.mem_cons.mp hy with h | h
    · subst h
      exact le_trans (foldl_min_le_init zs (min x y)) (min_le_right x y)
    · exact ih (min x z) h

theorem foldl_min_mem (xs : List ℚ) (x : ℚ) :
    xs.foldl min x = x ∨ xs.foldl min x ∈ xs := by
  induction xs generalizing x with
  | nil => exact Or.inl rfl
  | cons y ys ih =>
    rcases ih (min x y) with h | h
    · rcases min_cases x y with ⟨he, _⟩ | ⟨he, _⟩
      · exact Or.inl (by rw [List.foldl_cons, h, he])
      · exact Or.inr (by rw [List.foldl_cons, h, he]; exact List.mem_cons_self y ys)
    · exact Or.inr (List.mem_cons_of_mem y h)

theorem listMin_le {l : List ℚ} {y : ℚ} (hy : y ∈ l) : listMin l ≤ y := by
  cases l with
  | nil => cases hy
  | cons x xs =>
    rcases List.mem_cons.mp hy with h | h
    · subst h; exact foldl_min_le_init xs y
    · exact foldl_min_le_mem xs x y h

theorem listMin_mem {l : List ℚ} (h : l ≠ []) : listMin l ∈ l := by
  cases l with
  | nil => exact absurd rfl h
  | cons x xs =>
    show xs.foldl min x ∈ x :: xs
    rcases foldl_min_mem xs x with he | he
    · rw [he]; exact List.mem_cons_self x xs
    · exact List.mem_cons_of_mem x he

theorem foldl_max_ge_init (xs : List ℚ) (x : ℚ) : x ≤ xs.foldl max x := by
  induction xs generalizing x with
  | nil => simp
  | cons y ys ih => exact le_trans (le_max_left x y) (ih (max x y))

theorem foldl_max_ge_mem (xs : List ℚ) (x y : ℚ) (hy : y ∈ xs) :
    y ≤ xs.foldl max x := by
  induction xs generalizing x with
  | nil => cases hy
  | cons z zs ih =>
    rcases List.mem_cons.mp hy with h | h
    · subst h
      exact le_trans (le_max_right x y) (foldl_max_ge_init zs (max x y))
    · exact ih (max x z) h

theorem foldl_max_mem (xs : List ℚ) (x : ℚ) :
    xs.foldl max x = x ∨ xs.foldl max x ∈ xs := by
  induction xs generalizing x with
  | nil => exact Or.inl rfl
  | cons y ys ih =>
    rcases ih (max x y) with h | h
    · rcases max_cases x y with ⟨he, _⟩ | ⟨he, _⟩
      · exact Or.inl (by rw [List.foldl_cons, h, he])
      · exact Or.inr (by rw [List.foldl_cons, h, he]; exact List.mem_cons_self y ys)
    · exact Or.inr (List.mem_cons_of_mem y h)

theorem listMax_ge {l : List ℚ} {y : ℚ} (hy : y ∈ l) : y ≤ listMax l := by
  cases l with
  | nil => cases hy
  | cons x xs =>
    rcases List.mem_cons.mp hy with h | h
    · subst h; exact foldl_max_ge_init xs y
    · exact foldl_max_ge_mem xs x y h

theorem listMax_mem {l : List ℚ} (h : l ≠ []) : listMax l ∈ l := by
  cases l with
  | nil => exact absurd rfl h
  | cons x xs =>
    show xs.foldl max x ∈ x :: xs
    rcases foldl_max_mem xs x with he | he
    · rw [he]; exact List.mem_cons_self x xs
    · exact List.mem_cons_of_mem x he

/-- Rearrangement `rearrange(normals, "b c d1 d2 -> b (d1 d2) c")` for one batch
element with the asserted three channels: the three flattened channel
planes are stacked pointwise into per-vertex 3-vectors. -/
def zip3 : List ℚ → List ℚ → List ℚ → List (List ℚ)
  | a :: as, b :: bs, c :: cs => [a, b, c] :: zip3 as bs cs
  | _, _, _ => []

theorem zip3_length (as bs cs : List ℚ) (n : ℕ)
    (ha : as.length = n) (hb : bs.length = n) (hc : cs.length = n) :
    (zip3 as bs cs).length = n := by
  induction as generalizing bs cs n with
  | nil =>
    subst ha
    simp at *
    subst hb
    subst hc
    rfl
  | cons a as ih =>
    cases bs with
    | nil => rw [← ha] at hb; simp at hb
    | cons b bs =>
      cases cs with
      | nil => rw [← ha] at hc; simp at hc
      | cons c cs =>
        cases n with
        | zero => simp at ha
        | succ m =>
          simp only [zip3, List.length_cons]
          simp only [List.length_cons] at ha hb hc
          exact congrArg Nat.succ (ih bs cs m (by omega) (by omega) (by omega))

theorem zip3_mem_length (as bs cs : List ℚ) (v : List ℚ)
    (hv : v ∈ zip3 as bs cs) : v.length = 3 := by
  induction as generalizing bs cs with
  | nil => simp [zip3] at hv
  | cons a as ih =>
    cases bs with
    | nil => simp [zip3] at hv
    | cons b bs =>
      cases cs with
      | nil => simp [zip3] at hv
      | cons c cs =>
        rcases List.mem_cons.mp hv with h | h
        · subst h; rfl
        · exact ih bs cs h

/-! ## model.py: SimViewTerrain -/

/-- Wire form of the `dimensions` sub-dict of a serialized terrain. -/
structure TerrainDims where
  extentX : ℚ
  extentY : ℚ
  shapeX : ℕ
  shapeY : ℕ
  deriving DecidableEq

/-- Wire form of the `bounds` sub-dict of a serialized terrain. -/
structure TerrainBounds where
  minX : ℚ
  minY : ℚ
  maxX : ℚ
  maxY : ℚ
  minZ : ℚ
  maxZ : ℚ
  deriving DecidableEq

/-- Wire form of a serialized terrain (`SimViewTerrain.to_json`). -/
structure TerrainDoc where
  dimensions : TerrainDims
  bounds : TerrainBounds
  heightData : List (List ℚ)
  normals : List (List (List ℚ))
  isSingleton : Bool
  deriving DecidableEq

/-- The `SimViewTerrain` dataclass.  `height_data` is one flattened
row-major height list per batch element; `normals` one list of
3-component vectors per batch element. -/
structure SimViewTerrain where
  extent_x : ℚ
  extent_y : ℚ
  shape_x : ℕ
  shape_y : ℕ
  min_x : ℚ
  min_y : ℚ
  max_x : ℚ
  max_y : ℚ
  min_z : ℚ
  max_z : ℚ
  height_data : List (List ℚ)
  normals : List (List (List ℚ))
  is_singleton : Bool
  deriving DecidableEq

def SimViewTerrain.to_json (t : SimViewTerrain) : TerrainDoc :=
  { dimensions := { extentX := t.extent_x, extentY := t.extent_y,
                    shapeX := t.shape_x, shapeY := t.shape_y }
    bounds := { minX := t.min_x, minY := t.min_y, maxX := t.max_x,
                maxY := t.max_y, minZ := t.min_z, maxZ := t.max_z }
    heightData := t.height_data
    normals := t.normals
    isSingleton := t.is_singleton }

/-- Factory `SimViewTerrain.create`: the heightmap is a batched `B × Dy × Dx`
grid, normals a batched `B × 3 × Dy × Dx` field.  z-bounds are reduced
from the height data; height and normal arrays are flattened row-major
per batch element. -/
def SimViewTerrain.create (heightmap : List (List (List ℚ)))
    (normals : List (List (List (List ℚ))))
    (x_lim : ℚ × ℚ) (y_lim : ℚ × ℚ) (is_singleton : Bool) : SimViewTerrain :=
  let Dy := (heightmap.headD []).length
  let Dx := ((heightmap.headD []).headD []).length
  let flat := heightmap.flatten.flatten
  { extent_x := x_lim.2 - x_lim.1
    extent_y := y_lim.2 - y_lim.1
    shape_x := Dx
    shape_y := Dy
    min_x := x_lim.1
    min_y := y_lim.1
    max_x := x_lim.2
    max_y := y_lim.2
    min_z := listMin flat
    max_z := listMax flat
    height_data := heightmap.map List.flatten
    normals := normals.map (fun batch =>
      match batch with
      | [c0, c1, c2] => zip3 c0.flatten c1.flatten c2.flatten
      | _ => [])
    is_singleton := is_singleton }

/-! ## model.py: OptionalBodyStateAttribute and SimViewBody -/

/-- The `OptionalBodyStateAttribute` string enumeration, exactly as
declared in model.py. -/
inductive OptionalBodyStateAttribute where
  | contacts
  | velocity
  | angularVelocity
  | force
  | torque
  deriving DecidableEq

def OptionalBodyStateAttribute.value : OptionalBodyStateAttribute → String
  | .contacts => "contacts"
  | .velocity => "velocity"
  | .angularVelocity => "angularVelocity"
  | .force => "force"
  | .torque => "torque"

/-- Constructor call `OptionalBodyStateAttribute(v)` on a raw string: the StrEnum
constructor succeeds exactly on the five declared member values and
raises `ValueError` on anything else. -/
def OptionalBodyStateAttribute.ofString (s : String) :
    Option OptionalBodyStateAttribute :=
  if s = "contacts" then some .contacts
  else if s = "velocity" then some .velocity
  else if s = "angularVelocity" then some .angularVelocity
  else if s = "force" then some .force
  else if s = "torque" then some .torque
  else none

/-- Values stored in a body's `shape` dict. -/
inductive ShapeVal where
  | str (s : String)
  | num (q : ℚ)
  | pts (p : List (List ℚ))
  deriving DecidableEq

/-- The `SimViewBody` dataclass. -/
structure SimViewBody where
  name : String
  shape : List (String × ShapeVal)
  available_attributes : Option (List OptionalBodyStateAttribute) := none
  deriving DecidableEq

inductive AttrError where
  | alreadySet
  | invalidValue (s : String)
  deriving DecidableEq

/-- One element of the `available_attributes` argument: already an
enum member, or a raw string fed to the StrEnum constructor. -/
def parseAttr (v : String ⊕ OptionalBodyStateAttribute) :
    Except AttrError OptionalBodyStateAttribute :=
  match v with
  | .inr a => .ok a
  | .inl s =>
    match OptionalBodyStateAttribute.ofString s with
    | some a => .ok a
    | none => .error (.invalidValue s)

/-- The coercion list comprehension: stops at the first invalid raw
string (its `ValueError` propagates). -/
def parseAttrs : List (String ⊕ OptionalBodyStateAttribute) →
    Except AttrError (List OptionalBodyStateAttribute)
  | [] => .ok []
  | v :: rest =>
    match parseAttr v with
    | .ok a =>
      match parseAttrs rest with
      | .ok l => .ok (a :: l)
      | .error e => .error e
    | .error e => .error e

/-- Method `SimViewBody.set_available_attributes`: raises `UserWarning` when
the set was already declared, else coerces each element through the
enum constructor. -/
def SimViewBody.set_available_attributes (b : SimViewBody)
    (vs : List (String ⊕ OptionalBodyStateAttribute)) :
    Except AttrError SimViewBody :=
  if b.available_attributes.isSome then .error .alreadySet
  else
    match parseAttrs vs with
    | .ok l => .ok { b with available_attributes := some l }
    | .error e => .error e

/-- Wire form of a serialized body (`SimViewBody.to_json`);
`availableAttributes` is present only when declared. -/
structure BodyDoc where
  name : String
  shape : List (String × ShapeVal)
  availableAttributes : Option (List String)
  deriving DecidableEq

def SimViewBody.to_json (b : SimViewBody) : BodyDoc :=
  { name := b.name
    shape := b.shape
    availableAttributes :=
      b.available_attributes.map (fun l => l.map OptionalBodyStateAttribute.value) }

/-! ## model.py: SimViewModel -/

/-- The `SimViewModel` dataclass; `bodies` is a name-keyed dict. -/
structure SimViewModel where
  batch_size : ℤ
  scalar_names : Option (List String)
  dt : ℚ
  collapse : Bool
  terrain : Option SimViewTerrain := none
  bodies : Option (List (String × SimViewBody)) := none
  deriving DecidableEq

def SimViewModel.add_terrain (m : SimViewModel) (terrain : SimViewTerrain) :
    Except String SimViewModel :=
  if m.terrain.isSome then .error "Terrain already exists"
  else .ok { m with terrain := some terrain }

def SimViewModel.add_body (m : SimViewModel) (body_name : String)
    (body : SimViewBody) : Except String SimViewModel :=
  let bodies := m.bodies.getD []
  if bodies.any (fun kv => kv.1 = body_name) then
    .error ("Body " ++ body_name ++ " already exists")
  else .ok { m with bodies := some (bodies ++ [(body_name, body)]) }

/-- Method `SimViewModel.create_terrain`: a 2-dimensional heightmap or a
channels-first 3-dimensional normal field gets a batch dimension
prepended, the batch/singleton relation is inferred from the model's
batch size, and the terrain field is assigned unconditionally. -/
def batchifyHeight (heightmap : List (List ℚ) ⊕ List (List (List ℚ))) :
    List (List (List ℚ)) :=
  match heightmap with
  | .inl h2 => [h2]
  | .inr h3 => h3

def batchifyNormals (normals : List (List (List ℚ)) ⊕ List (List (List (List ℚ)))) :
    List (List (List (List ℚ))) :=
  match normals with
  | .inl n3 => [n3]
  | .inr n4 => n4

def SimViewModel.create_terrain (m : SimViewModel)
    (heightmap : List (List ℚ) ⊕ List (List (List ℚ)))
    (normals : List (List (List ℚ)) ⊕ List (List (List (List ℚ))))
    (x_lim : ℚ × ℚ) (y_lim : ℚ × ℚ) : SimViewModel :=
  let hm := batchifyHeight heightmap
  let nm := batchifyNormals normals
  let B := hm.length
  let is_singleton := (B == 1) && !(m.batch_size == 1)
  { m with terrain := some (SimViewTerrain.create hm nm x_lim y_lim is_singleton) }

def SimViewModel.is_complete (m : SimViewModel) : Bool :=
  m.bodies.isSome && decide (0 < (m.bodies.getD []).length) && m.terrain.isSome

/-- Values of the model wire document's top-level dict. -/
inductive MVal where
  | int (n : ℤ)
  | strs (s : Option (List String))
  | rat (q : ℚ)
  | bool (b : Bool)
  | terrainDoc (t : TerrainDoc)
  | bodiesDoc (bs : List BodyDoc)
  deriving DecidableEq

/-- The model wire document: `SimViewModel.to_json`'s ordered dict. -/
def SimViewModel.to_json (m : SimViewModel) :
    Except String (List (String × MVal)) :=
  if m.bodies.isNone || decide ((m.bodies.getD []).length = 0) then
    .error "No bodies defined"
  else
    match m.terrain with
    | none => .error "No terrain defined"
    | some t =>
      .ok [("batchSize", .int m.batch_size),
           ("scalarNames", .strs m.scalar_names),
           ("dt", .rat m.dt),
           ("collapse", .bool m.collapse),
           ("terrain", .terrainDoc t.to_json),
           ("bodies", .bodiesDoc ((m.bodies.getD []).map (fun kv => kv.2.to_json)))]

/-! ## __init__.py: the SimView run aggregator

Scalar-channel values (`V`) and serialized body-state payloads (`B`)
are opaque: `add_state` stores the payload list as given
(`state.to_json()` is the identity embedding of the payload), and the
`.tolist()` normalization of tensor-valued scalars is the identity on
already-plain values. -/

variable {V B : Type}

/-- Values of a frame dict: the `time` number, a passed-through scalar
value, or the serialized body-state list. -/
inductive FrameVal (V B : Type) where
  | num (t : ℚ)
  | scalar (v : V)
  | bodies (bs : List B)
  deriving DecidableEq

/-- A frame: the Python dict appended by `add_state`. -/
abbrev Frame (V B : Type) := List (String × FrameVal V B)

/-- The frame dict `{"time": time, "bodies": [...], **scalars}` built
by `add_state`: a scalar channel whose name collides with `time` or
`bodies` overwrites that entry. -/
def mkFrame (time : ℚ) (body_states : List B)
    (scalars : List (String × V)) : Frame V B :=
  pyDictOf ([("time", FrameVal.num time), ("bodies", FrameVal.bodies body_states)]
    ++ scalars.map (fun kv => (kv.1, FrameVal.scalar kv.2)))

/-- Top-level values of a persisted artifact document. -/
inductive DocVal (V B : Type) where
  | modelDoc (m : List (String × MVal))
  | statesDoc (s : List (Frame V B))
  deriving DecidableEq

/-- A persisted artifact document (`{"model": ..., "states": ...}`). -/
abbrev Doc (V B : Type) := List (String × DocVal V B)

/-- The filesystem: a map from paths to persisted documents.
`json.dump` followed by `json.load` round-trips the document. -/
abbrev FS (V B : Type) := List (String × Doc V B)

/-- Module constant `CACHE_DIR`. -/
def CACHE_DIR : String := ".simview_cache"

/-- Method `SimView._make_cache_path`: `<root>/.simview_cache/<name>.json`,
where the root is the user cache directory when `use_cache` is set and
the shared temp directory otherwise (`HOME` stands for `Path.home()`;
`mkdir` is a no-op in this model). -/
def make_cache_path (use_cache : Bool) (name : String) : String :=
  (if use_cache then "HOME/.cache" else "/tmp") ++ "/" ++ CACHE_DIR ++ "/"
    ++ name ++ ".json"

/-- The `SimView` run aggregator's state.  Lifecycle is folded into
nullable fields exactly as in the source: `file = some _` means the
artifact document location is fixed (cache-loaded or persisted);
`model`/`states` are `none` once released or never built. -/
structure SimView (V B : Type) where
  run_name : String
  use_cache : Bool
  cache_path : String
  file : Option String
  model : Option SimViewModel
  states : Option (List (Frame V B))
  deriving DecidableEq

/-- Constructor `SimView.__init__`.  When a document already exists at the cache
path and `use_cache` is set, the run references that file and neither
the model nor the state buffer is created; otherwise a fresh model and
an empty frame list are built.  (The source also forwards a
`static_objects` argument that the `SimViewModel` dataclass does not
declare; no claim depends on it and it is not part of the model.) -/
def SimView.init (V B : Type) (run_name : String) (batch_size : ℤ)
    (scalar_names : Option (List String)) (dt : ℚ) (collapse : Bool)
    (terrain : Option SimViewTerrain) (bodies : Option (List (String × SimViewBody)))
    (use_cache : Bool) (fs : FS V B) : SimView V B :=
  let cache_path := make_cache_path use_cache run_name
  if (plookup cache_path fs).isSome && use_cache then
    { run_name := run_name, use_cache := use_cache, cache_path := cache_path,
      file := some cache_path, model := none, states := none }
  else
    { run_name := run_name, use_cache := use_cache, cache_path := cache_path,
      file := none,
      model := some { batch_size := batch_size, scalar_names := scalar_names,
                      dt := dt, collapse := collapse, terrain := terrain,
                      bodies := some (bodies.getD []) },
      states := some [] }

/-- Property `SimView.is_ready`. -/
def SimView.is_ready (s : SimView V B) : Bool :=
  s.file.isSome ||
    (match s.model, s.states with
     | some m, some sts => decide (0 < sts.length) && m.is_complete
     | _, _ => false)

inductive AddStateError where
  | fileSet
  | notInitialized
  | scalarsRequired
  | scalarMismatch
  deriving DecidableEq

/-- The message each `add_state` failure raises with. -/
def AddStateError.message : AddStateError → String
  | .fileSet => "Cannot add state after starting server or loading from cache"
  | .notInitialized => "Model and states not initialized. Cannot add state."
  | .scalarsRequired => "Scalar values must be provided"
  | .scalarMismatch => "Scalar values do not match model"

/-- Method `SimView.add_state`.  An error raise leaves the run unchanged; on
success the new frame is appended to the state buffer. -/
def SimView.add_state (s : SimView V B) (time : ℚ) (body_states : List B)
    (scalar_values : Option (List (String × V)) := none) :
    Except AddStateError (SimView V B) :=
  if s.file.isSome then .error .fileSet
  else match s.model, s.states with
    | some m, some sts =>
      match m.scalar_names with
      | some names =>
        match scalar_values with
        | none => .error .scalarsRequired
        | some sv =>
          if pySetEq (sv.map Prod.fst) names then
            .ok { s with states := some (sts ++ [mkFrame time body_states sv]) }
          else .error .scalarMismatch
      | none =>
        .ok { s with states := some (sts ++ [mkFrame time body_states []]) }
    | _, _ => .error .notInitialized

inductive VisOutcome where
  | serverStarted (path : String)
  | errorSaving
  | errorNoData
  | errorFileNotFound
  deriving DecidableEq

/-- The trailing block of `visualize`: start the server iff the file
path is set and the file exists. -/
def serveCheck (s : SimView V B) (fs : FS V B) :
    SimView V B × FS V B × VisOutcome :=
  match s.file with
  | some p =>
    if (plookup p fs).isSome then (s, fs, .serverStarted p)
    else (s, fs, .errorFileNotFound)
  | none => (s, fs, .errorFileNotFound)

/-- Method `SimView.visualize` (finalize).  `writeOk` is the I/O oracle for
the artifact write: when it is false, `open`/`json.dump` raises, the
handler reports the error and returns without starting the server.
Note the source assigns `self._file = self._cache_path` *before*
attempting the write and does not roll it back on failure; building
the wire document (which raises on an incomplete model) happens before
that assignment. -/
def SimView.visualize (s : SimView V B) (fs : FS V B) (writeOk : Bool) :
    SimView V B × FS V B × VisOutcome :=
  if s.file.isSome then
    serveCheck s fs
  else match s.model, s.states with
    | some m, some sts =>
      match m.to_json with
      | .error _ => (s, fs, .errorSaving)
      | .ok mdoc =>
        let s1 : SimView V B := { s with file := some s.cache_path }
        if writeOk then
          let doc : Doc V B := [("model", .modelDoc mdoc), ("states", .statesDoc sts)]
          let fs1 := pyInsert fs s.cache_path doc
          let s2 : SimView V B := { s1 with model := none, states := none }
          serveCheck s2 fs1
        else
          (s1, fs, .errorSaving)
    | _, _ => (s, fs, .errorNoData)

/-! ## server.py: SimViewServer loading -/

inductive LoadError where
  | fileNotFound
  | missingKeys
  deriving DecidableEq

/-- Method `SimViewServer._load_data_from_file`: the document must exist and
contain both a `model` and a `states` top-level key. -/
def load_data_from_file (fs : FS V B) (sim_path : String) :
    Except LoadError (Doc V B) :=
  match plookup sim_path fs with
  | none => .error .fileNotFound
  | some data =>
    if (plookup "model" data).isSome && (plookup "states" data).isSome then
      .ok data
    else .error .missingKeys

/-- Repeated `add_state` calls, one `(time, body_states, scalar_values)`
triple per call, stopping at the first failure. -/
def addStates (s : SimView V B)
    (inputs : List (ℚ × List B × Option (List (String × V)))) :
    Except AddStateError (SimView V B) :=
  match inputs with
  | [] => .ok s
  | (t, bs, sv) :: rest =>
    match s.add_state t bs sv with
    | .ok s1 => addStates s1 rest
    | .error e => .error e

/-! ## Generic helper lemmas about the embedded Python primitives -/

theorem pySetEq_iff (a b : List String) :
    pySetEq a b = true ↔ (∀ x, x ∈ a ↔ x ∈ b) := by
  simp only [pySetEq, Bool.and_eq_true, List.all_eq_true]
  constructor
  · rintro ⟨h1, h2⟩ x
    constructor
    · intro hx; simpa using h1 x hx
    · intro hx; simpa using h2 x hx
  · intro h
    constructor
    · intro x hx; simpa using (h x).mp hx
    · intro x hx; simpa using (h x).mpr hx

theorem lastVal_append (k : String) (l1 l2 : List (String × α)) :
    lastVal k (l1 ++ l2) = (lastVal k l2).elim (lastVal k l1) some := by
  unfold lastVal
  rw [List.foldl_append, lastVal_foldl]
  rfl

theorem lastVal_map {γ : Type v} (k : String) (f : α → γ) (l : List (String × α)) :
    lastVal k (l.map (fun kv => (kv.1, f kv.2))) = (lastVal k l).map f := by
  induction l with
  | nil => simp [lastVal]
  | cons hd tl ih =>
    rw [List.map_cons, lastVal_cons, lastVal_cons, ih]
    cases hlv : lastVal k tl with
    | some w => simp
    | none => by_cases h : hd.1 = k <;> simp [h]

theorem lastVal_eq_none_of_not_mem (k : String) (l : List (String × α))
    (h : k ∉ l.map Prod.fst) : lastVal k l = none := by
  induction l with
  | nil => rfl
  | cons hd tl ih =>
    rw [lastVal_cons]
    have h1 : ¬ (hd.1 = k) := by
      intro hc
      exact h (by simp [hc])
    have h2 : k ∉ tl.map Prod.fst := by
      intro hc
      exact h (by simp [hc])
    rw [ih h2]
    simp [h1]

theorem lastVal_isSome_of_mem (k : String) (l : List (String × α))
    (h : k ∈ l.map Prod.fst) : (lastVal k l).isSome := by
  induction l with
  | nil => simp at h
  | cons hd tl ih =>
    rw [lastVal_cons]
    by_cases hk : k ∈ tl.map Prod.fst
    · cases hlv : lastVal k tl with
      | some w => simp
      | none => rw [hlv] at ih; simp at ih; exact absurd hk (by simpa using ih)
    · have h1 : hd.1 = k := by
        rcases List.mem_map.mp h with ⟨kv, hkv, hfst⟩
        rcases List.mem_cons.mp hkv with he | he
        · rw [he] at hfst; exact hfst
        · exact absurd (List.mem_map.mpr ⟨kv, he, hfst⟩) hk
      rw [lastVal_eq_none_of_not_mem k tl hk]
      simp [h1]

/-- The `time` entry of a frame whose scalar channels do not include a
`time` key is the time passed to `add_state`. -/
theorem plookup_time_mkFrame (time : ℚ) (body_states : List B)
    (sv : List (String × V)) (h : "time" ∉ sv.map Prod.fst) :
    plookup "time" (mkFrame time body_states sv) = some (FrameVal.num time) := by
  unfold mkFrame
  rw [plookup_pyDictOf, lastVal_append]
  have hmap : "time" ∉ (sv.map (fun kv => (kv.1, FrameVal.scalar (B := B) kv.2))).map Prod.fst := by
    intro hc
    apply h
    rcases List.mem_map.mp hc with ⟨kv, hkv, hfst⟩
    rcases List.mem_map.mp hkv with ⟨kv0, hkv0, hkv0e⟩
    exact List.mem_map.mpr ⟨kv0, hkv0, by rw [← hkv0e] at hfst; exact hfst⟩
  rw [lastVal_eq_none_of_not_mem _ _ hmap]
  rfl

/-! ## Theorems for the claims -/

/-- C5: `to_json` (serialization) succeeds and yields a document with
`terrain` and `bodies` keys iff the model is complete (at least one
body and a terrain); on every incomplete model it raises; and
`is_complete` is a total boolean predicate holding exactly on the
complete models. -/
theorem C5_serialize_iff_complete (m : SimViewModel) :
    (m.to_json.isOk = m.is_complete) ∧
    (∀ d, m.to_json = .ok d →
      (plookup "terrain" d).isSome ∧ (plookup "bodies" d).isSome) ∧
    (m.is_complete = true ↔
      ((∃ bs, m.bodies = some bs ∧ bs ≠ []) ∧ m.terrain ≠ none)) ∧
    (m.is_complete = false → ∃ e, m.to_json = .error e) := by
  refine ⟨?_, ?_, ?_, ?_⟩
  · unfold SimViewModel.to_json SimViewModel.is_complete
    cases hb : m.bodies with
    | none => simp [Except.isOk, Except.toBool]
    | some bs =>
      cases bs with
      | nil => simp [Except.isOk, Except.toBool]
      | cons x xs =>
        cases ht : m.terrain with
        | none => simp [Except.isOk, Except.toBool]
        | some t => simp [Except.isOk, Except.toBool]
  · intro d hd
    unfold SimViewModel.to_json at hd
    cases hb : m.bodies with
    | none => rw [hb] at hd; simp at hd
    | some bs =>
      cases bs with
      | nil => rw [hb] at hd; simp at hd
      | cons x xs =>
        cases ht : m.terrain with
        | none => rw [hb, ht] at hd; simp at hd
        | some t =>
          rw [hb, ht] at hd
          simp only [Option.isNone_some, List.length_cons, Option.getD_some,
            Bool.false_or, decide_eq_true_eq] at hd
          rw [if_neg (by simp)] at hd
          cases hd
          simp [plookup]
  · unfold SimViewModel.is_complete
    cases hb : m.bodies with
    | none => simp
    | some bs =>
      cases bs with
      | nil => simp
      | cons x xs =>
        cases ht : m.terrain with
        | none => simp
        | some t => simp
  · intro h
    unfold SimViewModel.is_complete at h
    unfold SimViewModel.to_json
    cases hb : m.bodies with
    | none => exact ⟨"No bodies defined", by simp⟩
    | some bs =>
      cases bs with
      | nil => exact ⟨"No bodies defined", by simp⟩
      | cons x xs =>
        cases ht : m.terrain with
        | none =>
          refine ⟨"No terrain defined", ?_⟩
          rw [if_neg (by simp)]
        | some t => rw [hb, ht] at h; simp at h

/-- A concrete 1×2 single-batch terrain built through the factory. -/
def exTerrain : SimViewTerrain :=
  SimViewTerrain.create [[[1, 2]]] [[[[1, 2]], [[3, 4]], [[5, 6]]]] (0, 4) (0, 6) false

/-- A concrete sphere body. -/
def exBody : SimViewBody :=
  { name := "ball", shape := [("type", .str "sphere"), ("radius", .num 1)] }

/-- A concrete complete model: one body, one terrain, one declared
scalar channel. -/
def exModel : SimViewModel :=
  { batch_size := 1, scalar_names := some ["energy"], dt := 1/100,
    collapse := false, terrain := some exTerrain, bodies := some [("ball", exBody)] }

/-- A concrete incomplete model: no bodies, no terrain. -/
def exEmptyModel : SimViewModel :=
  { batch_size := 1, scalar_names := some ["energy"], dt := 1/100,
    collapse := false, terrain := none, bodies := none }

/-- C5 witness: the concrete complete model serializes with both keys
present, and the concrete incomplete model fails. -/
theorem C5_serialize_iff_complete_witness :
    exEmptyModel.to_json = .error "No bodies defined" ∧
    exModel.is_complete = true ∧
    (∀ d, exModel.to_json = .ok d →
      (plookup "terrain" d).isSome ∧ (plookup "bodies" d).isSome) := by
  refine ⟨rfl, rfl, ?_⟩
  exact (C5_serialize_iff_complete exModel).2.1

theorem parseAttrs_error (vs : List (String ⊕ OptionalBodyStateAttribute))
    (s : String) (hs : Sum.inl s ∈ vs)
    (hbad : OptionalBodyStateAttribute.ofString s = none) :
    ∃ s2, parseAttrs vs = .error (.invalidValue s2) := by
  induction vs with
  | nil => cases hs
  | cons v rest ih =>
    cases v with
    | inr a =>
      have hs2 : Sum.inl s ∈ rest := by
        rcases List.mem_cons.mp hs with he | he
        · cases he
        · exact he
      rcases ih hs2 with ⟨s2, h2⟩
      exact ⟨s2, by simp [parseAttrs, parseAttr, h2]⟩
    | inl s0 =>
      cases ho : OptionalBodyStateAttribute.ofString s0 with
      | none => exact ⟨s0, by simp [parseAttrs, parseAttr, ho]⟩
      | some a =>
        have hs2 : Sum.inl s ∈ rest := by
          rcases List.mem_cons.mp hs with he | he
          · injection he with he0
            rw [he0] at hbad
            rw [hbad] at ho
            cases ho
          · exact he
        rcases ih hs2 with ⟨s2, h2⟩
        exact ⟨s2, by simp [parseAttrs, parseAttr, ho, h2]⟩

/-- C8 counterexample: the claimed closed set of declarable vector
kinds is wrong on the code.  `orientation` and `position` are rejected
by the enum constructor, while `contacts` — absent from the claimed
set — is accepted; declaring `orientation` on a fresh body raises. -/
theorem C8_counterexample :
    OptionalBodyStateAttribute.ofString "orientation" = none ∧
    OptionalBodyStateAttribute.ofString "position" = none ∧
    OptionalBodyStateAttribute.ofString "contacts" = some .contacts ∧
    exBody.set_available_attributes [Sum.inl "orientation"]
      = .error (.invalidValue "orientation") :=
  ⟨rfl, rfl, rfl, rfl⟩

/-- C8 amended: the closed set of declarable kinds is exactly
{contacts, velocity, angularVelocity, force, torque}; redeclaring on
the same body is an error, and any raw string outside the set is
rejected. -/
theorem C8_available_attribute_set (s : String) (b : SimViewBody)
    (vs : List (String ⊕ OptionalBodyStateAttribute)) :
    ((OptionalBodyStateAttribute.ofString s).isSome ↔
      s ∈ ["contacts", "velocity", "angularVelocity", "force", "torque"]) ∧
    (b.available_attributes.isSome = true →
      b.set_available_attributes vs = .error .alreadySet) ∧
    (b.available_attributes = none → Sum.inl s ∈ vs →
      OptionalBodyStateAttribute.ofString s = none →
      ∃ s2, b.set_available_attributes vs = .error (.invalidValue s2)) := by
  refine ⟨?_, ?_, ?_⟩
  · unfold OptionalBodyStateAttribute.ofString
    by_cases h1 : s = "contacts" <;> by_cases h2 : s = "velocity" <;>
      by_cases h3 : s = "angularVelocity" <;> by_cases h4 : s = "force" <;>
      by_cases h5 : s = "torque" <;> simp_all
  · intro h
    simp [SimViewBody.set_available_attributes, h]
  · intro hnone hs hbad
    rcases parseAttrs_error vs s hs hbad with ⟨s2, h2⟩
    refine ⟨s2, ?_⟩
    unfold SimViewBody.set_available_attributes
    rw [hnone]
    simp only [Option.isSome_none, Bool.false_eq_true, if_false, h2]

/-- C8 witness at concrete inputs. -/
theorem C8_available_attribute_set_witness :
    (OptionalBodyStateAttribute.ofString "velocity").isSome ∧
    ({ exBody with available_attributes := some [.velocity] } : SimViewBody).set_available_attributes
      [Sum.inr .force] = .error .alreadySet ∧
    (∃ s2, exBody.set_available_attributes [Sum.inl "orientation"]
      = .error (.invalidValue s2)) :=
  ⟨(C8_available_attribute_set "velocity" exBody []).1.mpr (by simp),
   (C8_available_attribute_set "x"
      ({ exBody with available_attributes := some [.velocity] }) [Sum.inr .force]).2.1 rfl,
   (C8_available_attribute_set "orientation" exBody [Sum.inl "orientation"]).2.2
      rfl (List.mem_singleton.mpr rfl) rfl⟩

/-- C9: on a model whose terrain is already set, `create_terrain`
succeeds and overwrites the terrain with the newly built one (leaving
the bodies untouched), while `add_terrain` — by contrast — raises the
duplicate-terrain error. -/
theorem C9_create_terrain_replaces (m : SimViewModel) (t0 t : SimViewTerrain)
    (heightmap : List (List ℚ) ⊕ List (List (List ℚ)))
    (normals : List (List (List ℚ)) ⊕ List (List (List (List ℚ))))
    (x_lim y_lim : ℚ × ℚ) (h : m.terrain = some t0) :
    (m.create_terrain heightmap normals x_lim y_lim).terrain =
      some (SimViewTerrain.create (batchifyHeight heightmap)
        (batchifyNormals normals) x_lim y_lim
        (((batchifyHeight heightmap).length == 1) && !(m.batch_size == 1))) ∧
    (m.create_terrain heightmap normals x_lim y_lim).bodies = m.bodies ∧
    m.add_terrain t = .error "Terrain already exists" := by
  refine ⟨rfl, rfl, ?_⟩
  simp [SimViewModel.add_terrain, h]

/-- C9 witness at concrete inputs: replace `exModel`'s terrain. -/
theorem C9_create_terrain_replaces_witness :
    (exModel.create_terrain (Sum.inl [[7, 8]])
        (Sum.inl [[[7, 8]], [[3, 4]], [[5, 6]]]) (0, 4) (0, 6)).terrain =
      some (SimViewTerrain.create (batchifyHeight (Sum.inl [[7, 8]]))
        (batchifyNormals (Sum.inl [[[7, 8]], [[3, 4]], [[5, 6]]])) (0, 4) (0, 6)
        (((batchifyHeight (Sum.inl [[(7 : ℚ), 8]])).length == 1)
          && !(exModel.batch_size == 1))) ∧
    (exModel.create_terrain (Sum.inl [[7, 8]])
        (Sum.inl [[[7, 8]], [[3, 4]], [[5, 6]]]) (0, 4) (0, 6)).bodies = exModel.bodies ∧
    exModel.add_terrain exTerrain = .error "Terrain already exists" :=
  C9_create_terrain_replaces exModel exTerrain exTerrain
    (Sum.inl [[7, 8]]) (Sum.inl [[[7, 8]], [[3, 4]], [[5, 6]]]) (0, 4) (0, 6) rfl

/-- A successful finalize: the document is written at the cache path,
the in-memory model and frame buffer are released, and the server is
started on the written file. -/
theorem visualize_write_success (s : SimView V B) (fs : FS V B)
    (m : SimViewModel) (sts : List (Frame V B)) (mdoc : List (String × MVal))
    (hfile : s.file = none) (hm : s.model = some m) (hsts : s.states = some sts)
    (hjson : m.to_json = .ok mdoc) :
    s.visualize fs true =
      ({ s with file := some s.cache_path, model := none, states := none },
       pyInsert fs s.cache_path
         [("model", .modelDoc mdoc), ("states", .statesDoc sts)],
       .serverStarted s.cache_path) := by
  simp only [SimView.visualize, hfile, hm, hsts, hjson, Option.isSome_none,
    Bool.false_eq_true, if_false, if_true, serveCheck, plookup_pyInsert,
    Option.isSome_some]

/-- C2: a run constructed with `use_cache` whose cache path already
holds a document enters the Serving shape immediately (file reference
set, model and frame buffer never created); and after a first run under
the same name finalizes successfully, a second `use_cache` construction
under that name finds the first run's artifact at the same
deterministic path instead of building a model. -/
theorem C2_cache_shortcircuit (run_name : String) (batch_size : ℤ)
    (scalar_names : Option (List String)) (dt : ℚ) (collapse : Bool)
    (terrain : Option SimViewTerrain)
    (bodies : Option (List (String × SimViewBody))) (fs : FS V B) :
    ((plookup (make_cache_path true run_name) fs).isSome = true →
      SimView.init V B run_name batch_size scalar_names dt collapse terrain bodies true fs
        = { run_name := run_name, use_cache := true,
            cache_path := make_cache_path true run_name,
            file := some (make_cache_path true run_name),
            model := none, states := none }) ∧
    (∀ (s1 : SimView V B) (fs0 : FS V B) (m : SimViewModel)
        (sts : List (Frame V B)) (mdoc : List (String × MVal)),
      s1.file = none → s1.model = some m → s1.states = some sts →
      m.to_json = .ok mdoc →
      s1.cache_path = make_cache_path true run_name →
      (s1.visualize fs0 true).2.2 = .serverStarted (make_cache_path true run_name) ∧
      (SimView.init V B run_name batch_size scalar_names dt collapse terrain bodies true
          ((s1.visualize fs0 true).2.1)).file = some (make_cache_path true run_name) ∧
      (SimView.init V B run_name batch_size scalar_names dt collapse terrain bodies true
          ((s1.visualize fs0 true).2.1)).model = none ∧
      (SimView.init V B run_name batch_size scalar_names dt collapse terrain bodies true
          ((s1.visualize fs0 true).2.1)).states = none) := by
  constructor
  · intro h
    simp only [SimView.init, h, Bool.and_true, if_true]
  · intro s1 fs0 m sts mdoc hfile hm hsts hjson hpath
    have hv := visualize_write_success s1 fs0 m sts mdoc hfile hm hsts hjson
    rw [hv]
    have hlook : (plookup (make_cache_path true run_name)
        (pyInsert fs0 s1.cache_path
          [("model", DocVal.modelDoc mdoc), ("states", DocVal.statesDoc sts)])).isSome
        = true := by
      rw [plookup_pyInsert, hpath, if_pos rfl]
      rfl
    refine ⟨by rw [hpath], ?_, ?_, ?_⟩ <;>
      · simp only [SimView.init, hlook, Bool.and_true, if_true]

/-- C3: in Building with declared scalar names, `add_state` with an
absent or key-set-mismatched `scalar_values` raises a scalar error.
In this pure embedding an error result returns no new state: the
Python raise happens before the single mutating append, so the frame
sequence is unchanged. -/
theorem C3_scalar_mismatch_rejected (s : SimView V B) (m : SimViewModel)
    (sts : List (Frame V B)) (names : List String) (time : ℚ)
    (body_states : List B) (scalar_values : Option (List (String × V)))
    (hfile : s.file = none) (hm : s.model = some m) (hsts : s.states = some sts)
    (hnames : m.scalar_names = some names)
    (hmismatch : scalar_values = none ∨
      ∃ sv, scalar_values = some sv ∧
        ¬ (∀ x, x ∈ sv.map Prod.fst ↔ x ∈ names)) :
    s.add_state time body_states scalar_values = .error .scalarsRequired ∨
    s.add_state time body_states scalar_values = .error .scalarMismatch := by
  rcases hmismatch with h | ⟨sv, hsv, hne⟩
  · subst h
    left
    simp only [SimView.add_state, hfile, hm, hsts, hnames, Option.isSome_none,
      Bool.false_eq_true, if_false]
  · subst hsv
    right
    have hfalse : pySetEq (sv.map Prod.fst) names = false := by
      cases hq : pySetEq (sv.map Prod.fst) names with
      | false => rfl
      | true => exact absurd ((pySetEq_iff _ _).mp hq) hne
    simp only [SimView.add_state, hfile, hm, hsts, hnames, hfalse,
      Option.isSome_none, Bool.false_eq_true, if_false]

/-- C3 witness: supplying `{"foo"}` against declared `["energy"]`
fails. -/
theorem C3_scalar_mismatch_rejected_witness :
    (SimView.init ℚ Unit "demo" 1 (some ["energy"]) (1/100) false
        (some exTerrain) (some [("ball", exBody)]) true []).add_state 0 []
        (some [("foo", (1 : ℚ))]) = .error .scalarsRequired ∨
    (SimView.init ℚ Unit "demo" 1 (some ["energy"]) (1/100) false
        (some exTerrain) (some [("ball", exBody)]) true []).add_state 0 []
        (some [("foo", (1 : ℚ))]) = .error .scalarMismatch :=
  C3_scalar_mismatch_rejected _ _ [] ["energy"] 0 [] (some [("foo", 1)])
    rfl rfl rfl rfl
    (Or.inr ⟨[("foo", 1)], rfl, fun hall => by simpa using (hall "foo").mp (by simp)⟩)

/-- A concrete building run over an empty filesystem. -/
def exRun : SimView ℚ Unit :=
  SimView.init ℚ Unit "demo" 1 (some ["energy"]) (1/100) false (some exTerrain)
    (some [("ball", exBody)]) true []

/-- The concrete run after a successful finalize. -/
def exPersisted : SimView ℚ Unit := (exRun.visualize [] true).1

/-- The filesystem after the concrete run's finalize. -/
def exPersistedFS : FS ℚ Unit := (exRun.visualize [] true).2.1

/-- A second construction under the same name, finding the cache. -/
def exCacheLoaded : SimView ℚ Unit :=
  SimView.init ℚ Unit "demo" 1 (some ["energy"]) (1/100) false none none true
    exPersistedFS

/-- C6 amended: every run whose artifact location is fixed — which
covers both the already-persisted and the loaded-from-cache case —
rejects `add_state` through the one shared check, raising the same
error condition with the same message in both cases. -/
theorem C6_not_building_same_error (s : SimView V B) (p : String)
    (time : ℚ) (body_states : List B) (scalar_values : Option (List (String × V)))
    (h : s.file = some p) :
    s.add_state time body_states scalar_values = .error .fileSet ∧
    AddStateError.message .fileSet =
      "Cannot add state after starting server or loading from cache" := by
  constructor
  · simp only [SimView.add_state, h, Option.isSome_some, if_true]
  · rfl

/-- C6 counterexample: the persisted run and the cache-loaded run fail
`add_state` with the *same* error condition and message — not the two
distinct, clearly-worded conditions the claim requires. -/
theorem C6_counterexample :
    exPersisted.add_state 0 [] (some [("energy", (5 : ℚ))]) = .error .fileSet ∧
    exCacheLoaded.add_state 0 [] (some [("energy", (5 : ℚ))]) = .error .fileSet ∧
    AddStateError.message .fileSet =
      "Cannot add state after starting server or loading from cache" :=
  ⟨rfl, rfl, rfl⟩

/-- C6 witness at the concrete persisted run. -/
theorem C6_not_building_same_error_witness :
    exPersisted.add_state 0 [] (some [("energy", (5 : ℚ))]) = .error .fileSet ∧
    AddStateError.message .fileSet =
      "Cannot add state after starting server or loading from cache" :=
  C6_not_building_same_error exPersisted (make_cache_path true "demo") 0 []
    (some [("energy", 5)]) rfl

/-- A scalar channel present in the supplied dict ends up as the
frame's entry under its own name, shadowing any earlier entry. -/
theorem plookup_mkFrame_shadowed (k : String) (time : ℚ)
    (body_states : List B) (sv : List (String × V))
    (hk : k ∈ sv.map Prod.fst) :
    ∃ v0, lastVal k sv = some v0 ∧
      plookup k (mkFrame time body_states sv) = some (FrameVal.scalar v0) := by
  have h1 := lastVal_isSome_of_mem k sv hk
  cases hlv : lastVal k sv with
  | none => rw [hlv] at h1; simp at h1
  | some v0 =>
    refine ⟨v0, rfl, ?_⟩
    unfold mkFrame
    rw [plookup_pyDictOf, lastVal_append]
    have hm : lastVal k (sv.map fun kv => (kv.1, FrameVal.scalar (B := B) kv.2))
        = some (FrameVal.scalar v0) := by
      rw [lastVal_map, hlv]
      rfl
    rw [hm]
    rfl

/-- C10: with `"time"` (resp. `"bodies"`) among the declared scalar
names, a valid `add_state` succeeds and the `**scalars` spread
overwrites the frame's `time` (resp. `bodies`) entry with the supplied
scalar value — the stored frame no longer carries the passed time
(resp. the body payload list) under that key. -/
theorem C10_scalar_name_shadows_frame_fields (s : SimView V B)
    (m : SimViewModel) (sts : List (Frame V B)) (names : List String)
    (time : ℚ) (body_states : List B) (sv : List (String × V))
    (hfile : s.file = none) (hm : s.model = some m) (hsts : s.states = some sts)
    (hnames : m.scalar_names = some names)
    (hvalid : pySetEq (sv.map Prod.fst) names = true) :
    s.add_state time body_states (some sv)
      = .ok { s with states := some (sts ++ [mkFrame time body_states sv]) } ∧
    ("time" ∈ names →
      ∃ v0, lastVal "time" sv = some v0 ∧
        plookup "time" (mkFrame time body_states sv)
          = some (FrameVal.scalar v0)) ∧
    ("bodies" ∈ names →
      ∃ v0, lastVal "bodies" sv = some v0 ∧
        plookup "bodies" (mkFrame time body_states sv)
          = some (FrameVal.scalar v0)) := by
  refine ⟨?_, ?_, ?_⟩
  · simp only [SimView.add_state, hfile, hm, hsts, hnames, hvalid,
      Option.isSome_none, Bool.false_eq_true, if_false, if_true]
  · intro ht
    exact plookup_mkFrame_shadowed "time" time body_states sv
      (((pySetEq_iff _ _).mp hvalid "time").mpr ht)
  · intro hb
    exact plookup_mkFrame_shadowed "bodies" time body_states sv
      (((pySetEq_iff _ _).mp hvalid "bodies").mpr hb)

/-- A concrete building run declaring a scalar channel named "time". -/
def exRunTime : SimView ℚ Unit :=
  SimView.init ℚ Unit "t1" 1 (some ["time"]) (1/100) false (some exTerrain)
    (some [("ball", exBody)]) true []

/-- C10 witness: the concrete run stores the scalar value 37 under the
frame's "time" key in place of the passed time 0. -/
theorem C10_scalar_name_shadows_frame_fields_witness :
    exRunTime.add_state 0 [] (some [("time", (37 : ℚ))])
      = .ok { exRunTime with
          states := some [mkFrame 0 [] [("time", (37 : ℚ))]] } ∧
    (∃ v0, lastVal "time" [("time", (37 : ℚ))] = some v0 ∧
      plookup "time" (mkFrame (V := ℚ) (B := Unit) 0 [] [("time", 37)])
        = some (FrameVal.scalar v0)) := by
  have h := C10_scalar_name_shadows_frame_fields exRunTime
    { batch_size := 1, scalar_names := some ["time"], dt := 1/100,
      collapse := false, terrain := some exTerrain,
      bodies := some [("ball", exBody)] }
    [] ["time"] 0 [] [("time", 37)] rfl rfl rfl rfl rfl
  exact ⟨h.1, h.2.1 (by simp)⟩

theorem flatten_length_uniform (g : List (List ℚ)) (R C : ℕ)
    (hR : g.length = R) (hC : ∀ row ∈ g, row.length = C) :
    g.flatten.length = R * C := by
  rw [List.length_flatten]
  have hrep : g.map List.length = List.replicate R C := by
    apply List.eq_replicate_iff.mpr
    refine ⟨by simp [hR], ?_⟩
    intro b hb
    rcases List.mem_map.mp hb with ⟨row, hrow, hlen⟩
    rw [← hlen]
    exact hC row hrow
  rw [hrep, List.sum_replicate, smul_eq_mul]

/-- C7: a terrain built from an R×C height grid per batch element
serializes with `heightData` of length `R*C` per batch element and
`normals` of length `R*C` per batch element with 3 components each,
and its z-bounds are the minimum and maximum of the supplied height
data (they are reduced from the data, never supplied). -/
theorem C7_terrain_shape_and_bounds (heightmap : List (List (List ℚ)))
    (normals : List (List (List (List ℚ)))) (x_lim y_lim : ℚ × ℚ)
    (sing : Bool) (R C : ℕ) (t : SimViewTerrain)
    (hhm : ∀ g ∈ heightmap, g.length = R ∧ ∀ row ∈ g, row.length = C)
    (hnm : ∀ nb ∈ normals, nb.length = 3 ∧
      ∀ ch ∈ nb, ch.length = R ∧ ∀ row ∈ ch, row.length = C)
    (hne : heightmap.flatten.flatten ≠ [])
    (ht : t = SimViewTerrain.create heightmap normals x_lim y_lim sing) :
    (∀ hd ∈ t.to_json.heightData, hd.length = R * C) ∧
    (∀ nb ∈ t.to_json.normals, nb.length = R * C ∧ ∀ v ∈ nb, v.length = 3) ∧
    (t.to_json.bounds.minZ ∈ heightmap.flatten.flatten ∧
      ∀ x ∈ heightmap.flatten.flatten, t.to_json.bounds.minZ ≤ x) ∧
    (t.to_json.bounds.maxZ ∈ heightmap.flatten.flatten ∧
      ∀ x ∈ heightmap.flatten.flatten, x ≤ t.to_json.bounds.maxZ) := by
  subst ht
  simp only [SimViewTerrain.create, SimViewTerrain.to_json]
  refine ⟨?_, ?_, ⟨?_, ?_⟩, ⟨?_, ?_⟩⟩
  · intro hd hmem
    rcases List.mem_map.mp hmem with ⟨g, hg, hge⟩
    rcases hhm g hg with ⟨hR, hC⟩
    rw [← hge]
    exact flatten_length_uniform g R C hR hC
  · intro nb hnb
    rcases List.mem_map.mp hnb with ⟨batch, hbatch, hbe⟩
    rcases hnm batch hbatch with ⟨hlen3, hch⟩
    rcases List.length_eq_three.mp hlen3 with ⟨c0, c1, c2, hb3⟩
    subst hb3
    have h0 := hch c0 (by simp)
    have h1 := hch c1 (by simp)
    have h2 := hch c2 (by simp)
    have hf0 := flatten_length_uniform c0 R C h0.1 h0.2
    have hf1 := flatten_length_uniform c1 R C h1.1 h1.2
    have hf2 := flatten_length_uniform c2 R C h2.1 h2.2
    rw [← hbe]
    constructor
    · exact zip3_length _ _ _ (R * C) hf0 hf1 hf2
    · intro v hv
      exact zip3_mem_length _ _ _ v hv
  · exact listMin_mem hne
  · intro x hx
    exact listMin_le hx
  · exact listMax_mem hne
  · intro x hx
    exact listMax_ge hx

/-- C7 witness at the concrete 1×2 grid behind `exTerrain`. -/
theorem C7_terrain_shape_and_bounds_witness :
    (∀ hd ∈ exTerrain.to_json.heightData, hd.length = 1 * 2) ∧
    (∀ nb ∈ exTerrain.to_json.normals, nb.length = 1 * 2 ∧
      ∀ v ∈ nb, v.length = 3) ∧
    (exTerrain.to_json.bounds.minZ
        ∈ ([[[1, 2]]] : List (List (List ℚ))).flatten.flatten ∧
      ∀ x ∈ ([[[1, 2]]] : List (List (List ℚ))).flatten.flatten,
        exTerrain.to_json.bounds.minZ ≤ x) ∧
    (exTerrain.to_json.bounds.maxZ
        ∈ ([[[1, 2]]] : List (List (List ℚ))).flatten.flatten ∧
      ∀ x ∈ ([[[1, 2]]] : List (List (List ℚ))).flatten.flatten,
        x ≤ exTerrain.to_json.bounds.maxZ) :=
  C7_terrain_shape_and_bounds [[[1, 2]]] [[[[1, 2]], [[3, 4]], [[5, 6]]]]
    (0, 4) (0, 6) false 1 2 exTerrain (by decide) (by decide) (by decide) rfl

/-- C1: evaluating `visualize` at a concrete Building run when the
artifact write raises.  The error is reported and the server is not
started, but — contrary to the claim — the run's observable lifecycle
state changes: `_file` is assigned before the write and not rolled
back, so `add_state` flips from accepted to rejected, `is_ready` flips
from false to true, and a later `visualize` does not retry the write
(it writes nothing and reports the file missing). -/
theorem C1_visualize_io_failure_transitions :
    (exRun.add_state 0 [] (some [("energy", (5 : ℚ))])).isOk = true ∧
    exRun.is_ready = false ∧
    (exRun.visualize [] false).2.2 = .errorSaving ∧
    (exRun.visualize [] false).2.1 = [] ∧
    (exRun.visualize [] false).1.add_state 0 [] (some [("energy", (5 : ℚ))])
      = .error .fileSet ∧
    (exRun.visualize [] false).1.is_ready = true ∧
    ((exRun.visualize [] false).1.visualize [] true).2.1 = [] ∧
    ((exRun.visualize [] false).1.visualize [] true).2.2 = .errorFileNotFound :=
  ⟨rfl, rfl, rfl, rfl, rfl, rfl, rfl, rfl⟩

/-- Successful repeated `add_state`: every field but the frame buffer
is unchanged and the frames append in call order. -/
theorem addStates_ok (inputs : List (ℚ × List B × Option (List (String × V))))
    (s : SimView V B) (m : SimViewModel) (sts : List (Frame V B))
    (names : List String)
    (hfile : s.file = none) (hm : s.model = some m) (hsts : s.states = some sts)
    (hnames : m.scalar_names = some names)
    (hvalid : ∀ inp ∈ inputs, ∃ sv, inp.2.2 = some sv ∧
      pySetEq (sv.map Prod.fst) names = true) :
    addStates s inputs = .ok
      { s with states := some (sts ++ inputs.map (fun inp =>
          mkFrame inp.1 inp.2.1 (inp.2.2.getD []))) } := by
  induction inputs generalizing s sts with
  | nil =>
    simp only [addStates, List.map_nil, List.append_nil, ← hsts]
  | cons inp rest ih =>
    obtain ⟨t, bs, svo⟩ := inp
    rcases hvalid _ (List.mem_cons_self _ _) with ⟨sv, hsv, hps⟩
    simp only at hsv
    subst hsv
    have h1 : s.add_state t bs (some sv)
        = .ok { s with states := some (sts ++ [mkFrame t bs sv]) } := by
      simp only [SimView.add_state, hfile, hm, hsts, hnames, hps,
        Option.isSome_none, Bool.false_eq_true, if_false, if_true]
    have hih := ih { s with states := some (sts ++ [mkFrame t bs sv]) }
      (sts ++ [mkFrame t bs sv]) hfile hm rfl
      (fun i hi => hvalid i (List.mem_cons_of_mem _ hi))
    simp only [addStates, h1, hih, List.map_cons]
    congr 2
    rw [List.append_assoc]
    rfl

/-- C4 amended: the round-trip holds provided no declared scalar
channel is named "time" (otherwise the `**scalars` spread overwrites
the stored time, see the counterexample): starting from a fresh
Building run with a complete model, N valid `add_state` calls followed
by a successful finalize produce an artifact the server loads with a
`states` section of exactly the N frames in append order, the i-th
frame's time field equal to the time of the i-th call. -/
theorem C4_roundtrip (s : SimView V B) (m : SimViewModel)
    (names : List String) (fs : FS V B) (mdoc : List (String × MVal))
    (inputs : List (ℚ × List B × Option (List (String × V))))
    (hfile : s.file = none) (hm : s.model = some m) (hsts : s.states = some [])
    (hnames : m.scalar_names = some names) (hjson : m.to_json = .ok mdoc)
    (htime : "time" ∉ names)
    (hvalid : ∀ inp ∈ inputs, ∃ sv, inp.2.2 = some sv ∧
      pySetEq (sv.map Prod.fst) names = true) :
    ∃ s1, addStates s inputs = .ok s1 ∧
      (s1.visualize fs true).2.2 = .serverStarted s.cache_path ∧
      ∃ doc frames,
        load_data_from_file ((s1.visualize fs true).2.1) s.cache_path
          = .ok doc ∧
        plookup "states" doc = some (.statesDoc frames) ∧
        frames.length = inputs.length ∧
        frames.map (plookup "time")
          = inputs.map (fun inp => some (FrameVal.num inp.1)) := by
  have hadd := addStates_ok inputs s m [] names hfile hm hsts hnames hvalid
  set frames := inputs.map (fun inp =>
    mkFrame (V := V) (B := B) inp.1 inp.2.1 (inp.2.2.getD [])) with hframes
  refine ⟨_, hadd, ?_⟩
  have hv := visualize_write_success
    { s with states := some ([] ++ frames) } fs m frames mdoc hfile hm
    (by simp) hjson
  rw [hv]
  refine ⟨rfl, [("model", DocVal.modelDoc mdoc), ("states", DocVal.statesDoc frames)],
    frames, ?_, ?_, ?_, ?_⟩
  · unfold load_data_from_file
    rw [plookup_pyInsert, if_pos rfl]
    rfl
  · rfl
  · simp [hframes]
  · rw [hframes, List.map_map]
    apply List.map_congr_left
    intro inp hinp
    rcases hvalid inp hinp with ⟨sv, hsv, hps⟩
    have hkeys : "time" ∉ sv.map Prod.fst := by
      intro hmem
      exact htime (((pySetEq_iff _ _).mp hps "time").mp hmem)
    simp only [Function.comp_apply, hsv, Option.getD_some]
    exact plookup_time_mkFrame inp.1 inp.2.1 sv hkeys

/-- The wire document of the concrete complete model. -/
def exModelDoc : List (String × MVal) := (exModel.to_json).toOption.getD []

/-- C2 witness: the concrete run finalizes to the deterministic cache
path, and a second `use_cache` construction under the same name enters
the Serving shape referencing that artifact. -/
theorem C2_cache_shortcircuit_witness :
    (SimView.init ℚ Unit "demo" 1 (some ["energy"]) (1/100) false none none true
        exPersistedFS)
      = { run_name := "demo", use_cache := true,
          cache_path := make_cache_path true "demo",
          file := some (make_cache_path true "demo"),
          model := none, states := none } ∧
    (exRun.visualize [] true).2.2 = .serverStarted (make_cache_path true "demo") := by
  have hc := C2_cache_shortcircuit (V := ℚ) (B := Unit) "demo" 1 (some ["energy"])
    (1/100) false none none exPersistedFS
  have h2 := hc.2 exRun [] exModel [] exModelDoc rfl rfl rfl rfl rfl
  exact ⟨hc.1 rfl, h2.1⟩

/-- The concrete "time"-scalar run after one valid `add_state`. -/
def c4run1 : SimView ℚ Unit :=
  (exRunTime.add_state 0 [] (some [("time", (37 : ℚ))])).toOption.getD exRunTime

/-- The filesystem after the "time"-scalar run's finalize. -/
def c4fs : FS ℚ Unit := (c4run1.visualize [] true).2.1

/-- The artifact document the server loads for the "time"-scalar run. -/
def c4doc : Doc ℚ Unit :=
  (load_data_from_file c4fs (make_cache_path true "t1")).toOption.getD []

/-- The served states section for the "time"-scalar run. -/
def c4frames : List (Frame ℚ Unit) :=
  match plookup "states" c4doc with
  | some (.statesDoc s) => s
  | _ => []

/-- C4 counterexample: one valid `add_state` at time 0 on a model
declaring scalar names `["time"]`; after finalize and server load, the
single frame's `time` field holds the scalar value 37, not the passed
time 0 — the claim's time-field equation fails for this run. -/
theorem C4_counterexample :
    (exRunTime.add_state 0 [] (some [("time", (37 : ℚ))])).isOk = true ∧
    c4frames.length = 1 ∧
    plookup "time" (c4frames.headD []) = some (FrameVal.scalar (37 : ℚ)) ∧
    ¬ plookup "time" (c4frames.headD []) = some (FrameVal.num 0) :=
  ⟨rfl, rfl, rfl, by decide⟩

/-- C4 witness: two valid `add_state` calls on the concrete run, then
finalize and server load; the served states have length 2, in call
order, with the passed times 0 and 1/10. -/
theorem C4_roundtrip_witness :
    ∃ s1, addStates exRun
        [((0 : ℚ), ([] : List Unit), some [("energy", (5 : ℚ))]),
         ((1/10 : ℚ), ([] : List Unit), some [("energy", (24/5 : ℚ))])]
      = .ok s1 ∧
      (s1.visualize [] true).2.2 = .serverStarted exRun.cache_path ∧
      ∃ doc frames,
        load_data_from_file ((s1.visualize [] true).2.1) exRun.cache_path
          = .ok doc ∧
        plookup "states" doc = some (.statesDoc frames) ∧
        frames.length =
          ([((0 : ℚ), ([] : List Unit), some [("energy", (5 : ℚ))]),
            ((1/10 : ℚ), ([] : List Unit), some [("energy", (24/5 : ℚ))])]).length ∧
        frames.map (plookup "time")
          = ([((0 : ℚ), ([] : List Unit), some [("energy", (5 : ℚ))]),
              ((1/10 : ℚ), ([] : List Unit), some [("energy", (24/5 : ℚ))])]).map
              (fun inp => some (FrameVal.num inp.1)) :=
  C4_roundtrip exRun exModel ["energy"] [] exModelDoc
    [((0 : ℚ), ([] : List Unit), some [("energy", (5 : ℚ))]),
     ((1/10 : ℚ), ([] : List Unit), some [("energy", (24/5 : ℚ))])]
    rfl rfl rfl rfl rfl (by decide)
    (by
      intro inp hinp
      rcases List.mem_cons.mp hinp with h1 | h2
      · exact ⟨[("energy", 5)], by rw [h1], by decide⟩
      · rcases List.mem_cons.mp h2 with h1 | h1
        · exact ⟨[("energy", 24/5)], by rw [h1], by decide⟩
        · cases h1)

end SimViewSpec
